import Mathlib

/-!
# redis-leveldb: a shallow embedding of `redis-leveldb.c`

The connection layer of the server is embedded as pure functions over an
explicit connection state.

* A byte is a natural number below 256 and a byte string is a list of bytes.
* `read_buffer` is a function from indices to bytes; only the indices below
  `READ_BUFFER` belong to the C array, and every access outside of it makes
  the embedded function return `none` (the C behaviour is undefined there).
* The allocator is part of the server state: `realloc_same` says whether
  `realloc` hands back the block it was given; going on through a pointer
  whose block `realloc` did not hand back is undefined as well (`none`).
* `size_t` arithmetic is reduced modulo `2^64`, `int` values are wrapped to
  32 bits.
* Plain `char` is signed, as on the x86 targets the program is built for.
* `write(fd, ...)` appends to `fd_out`; `error(...)` appends to the
  server's `stdout`.
* The storage engine is modelled through its C interface: a key/value
  association, a record of the calls made, and two switches that make
  every lookup, respectively every write, report an error.
-/

namespace RedisLeveldb

/-- A byte string. -/
abbrev Bytes := List Nat

/-- The bytes of a string literal of the source. -/
def bytes (s : String) : Bytes := s.toList.map Char.toNat

/-- The constant of `#define READ_BUFFER 8192`. -/
def READ_BUFFER : Nat := 8192

/-- The modulus of `size_t` arithmetic. -/
def SIZE_MOD : Nat := 18446744073709551616

/-- Conversion of an integer to `int` (two's complement, 32 bits). -/
def wrap_int (x : Int) : Int := (x + 2147483648) % 4294967296 - 2147483648

/-- The value of a byte read through a plain (signed) `char`, as a `size_t`
summand: the byte itself below 128, the byte minus 256 otherwise. -/
def char_val (c : Nat) : Nat := if c < 128 then c else c + (SIZE_MOD - 256)

/-- One call made to the storage engine. -/
inductive db_call where
  | get (key : Bytes)
  | put (key : Bytes) (val : Bytes)
deriving DecidableEq, Repr

/-- The storage engine behind `leveldb_t*`: the stored association (first
match wins), the error every lookup reports (if any), the error every write
reports (if any), and the calls made so far. -/
structure leveldb_t where
  data : List (Bytes × Bytes)
  get_err : Option Bytes
  put_err : Option Bytes
  calls : List db_call

/-- What `leveldb_get` hands back: the returned pointer (`none` for NULL),
the value stored in `*vallen`, the content of `*errptr` and the engine. -/
structure get_result where
  out : Option Bytes
  vallen : Nat
  err : Option Bytes
  db : leveldb_t

/-- What `leveldb_put` hands back: the content of `*errptr` and the engine. -/
structure put_result where
  err : Option Bytes
  db : leveldb_t

/-- The call `leveldb_get(db, read_options, key, keylen, &vallen, &err)`. A
lookup that fails or finds nothing returns NULL with `*vallen = 0`; only a
failing lookup stores into `*errptr`. -/
def leveldb_get (db : leveldb_t) (key : Bytes) (err : Option Bytes) : get_result :=
  let db1 := { db with calls := db.calls ++ [db_call.get key] }
  match db.get_err with
  | some e => { out := none, vallen := 0, err := some e, db := db1 }
  | none =>
    match db.data.lookup key with
    | some v => { out := some v, vallen := v.length, err := err, db := db1 }
    | none => { out := none, vallen := 0, err := err, db := db1 }

/-- The call `leveldb_put(db, write_options, key, keylen, val, vallen, &err)`.
A write that reports an error stores nothing; a write that succeeds leaves
`*errptr` as it was. -/
def leveldb_put (db : leveldb_t) (key : Bytes) (val : Bytes) (err : Option Bytes) :
    put_result :=
  let db1 := { db with calls := db.calls ++ [db_call.put key val] }
  match db.put_err with
  | some e => { err := some e, db := db1 }
  | none => { err := err, db := { db1 with data := (key, val) :: db1.data } }

/-- The fields of `rl_server` the connection layer uses, with the lines
printed on the standard output and the allocator of the process:
`realloc_same old new` says whether `realloc`, asked to resize a block of
`old` bytes to `new` bytes, returns the pointer it was given with the block
resized (it may instead move the block, or fail). Where nothing is said the
allocator resizes every block in place. -/
structure rl_server where
  db : leveldb_t
  stdout : List Bytes
  realloc_same : Nat → Nat → Bool := fun _ _ => true

/-- The fields of `rl_connection` the connection layer uses. `fd_out` holds
the bytes written to the socket, `fd_open` is cleared by `close`, and
`reading` is cleared by `ev_io_stop`. -/
structure rl_connection where
  fd_out : Bytes
  fd_open : Bool
  reading : Bool
  buffered_data : Int
  read_buffer : Nat → Nat
  server : rl_server

/-- Function `static void error(const char* s)`: prints a line. -/
def error (c : rl_connection) (s : Bytes) : rl_connection :=
  { c with server := { c.server with stdout := c.server.stdout ++ [s] } }

/-- The call `write(c->fd, ...)`. -/
def write (c : rl_connection) (s : Bytes) : rl_connection :=
  { c with fd_out := c.fd_out ++ s }

/-- The bytes `strlen` counts: those before the first NUL. -/
def c_str (msg : Bytes) : Bytes := msg.takeWhile (fun x => x ≠ 0)

/-- Reading one byte of `read_buffer`. -/
def rd (buf : Nat → Nat) (i : Nat) : Option Nat :=
  if i < READ_BUFFER then some (buf i) else none

/-- Reading `n` bytes of `read_buffer` starting at `b`. -/
def rd_bytes (buf : Nat → Nat) (b : Nat) (n : Nat) : Option Bytes :=
  if b + n ≤ READ_BUFFER then some ((List.range n).map (fun i => buf (b + i))) else none

/-- Storing one byte in `read_buffer`. -/
def wr (buf : Nat → Nat) (i : Nat) (v : Nat) : Option (Nat → Nat) :=
  if i < READ_BUFFER then some (fun j => if j = i then v else buf j) else none

/-- The loop of `get_int`; the first argument is the number of bytes of
`read_buffer` left from `b` on. -/
def get_int_loop (buf : Nat → Nat) : Nat → Nat → Nat → Nat → Option (Nat × Nat)
  | 0, _, _, _ => none
  | left + 1, b, val, pos =>
    if buf b = 13 then some (val, b + 2)
    else get_int_loop buf left (b + 1)
      ((val * pos % SIZE_MOD + char_val (buf b) + (SIZE_MOD - 48)) % SIZE_MOD)
      (pos * 10 % SIZE_MOD)

/-- Function `static size_t get_int(char** i)`: the value and the new `*i`. -/
def get_int (buf : Nat → Nat) (b : Nat) : Option (Nat × Nat) :=
  get_int_loop buf (READ_BUFFER - b) b 0 1

/-- The digits `sprintf` prints for a non-negative number, least
significant first; the first argument bounds the number of digits. -/
def dec_digits_rev : Nat → Nat → Bytes
  | 0, _ => []
  | fuel + 1, n => if n < 10 then [48 + n] else (48 + n % 10) :: dec_digits_rev fuel (n / 10)

/-- The call `sprintf(buf + 1, "%ld", out_size)`: the `size_t` is read as a `long`. -/
def sprintf_ld (n : Nat) : Bytes :=
  if n % SIZE_MOD < 9223372036854775808 then (dec_digits_rev 20 (n % SIZE_MOD)).reverse
  else 45 :: (dec_digits_rev 20 (SIZE_MOD - n % SIZE_MOD)).reverse

/-- Function `static int get(rl_connection* c, char* b)`. -/
def get (c : rl_connection) (b : Nat) : Option (Int × rl_connection) :=
  match rd c.read_buffer b with
  | none => none
  | some ch =>
    if ch ≠ 36 then some (-1, c)
    else
      match get_int c.read_buffer (b + 1) with
      | none => none
      | some (size, b1) =>
        match rd_bytes c.read_buffer b1 size with
        | none => none
        | some key =>
          let r := leveldb_get c.server.db key none
          let c1 := { c with server := { c.server with db := r.db } }
          match r.err with
          | some e => some (1, write (error c1 e) (bytes "$-1\r\n"))
          | none =>
            match r.out with
            | none => some (1, write c1 (bytes "$-1\r\n"))
            | some out =>
              some (1, write (write (write (write c1 (36 :: sprintf_ld r.vallen))
                (bytes "\r\n")) (out.take r.vallen)) (bytes "\r\n"))

/-- Function `static void write_error(int fd, const char* msg)`. -/
def write_error (c : rl_connection) (msg : Bytes) : rl_connection :=
  write (write (write c (bytes "-")) (c_str msg)) (bytes "\r\n")

/-- Function `static void write_status(int fd, const char* msg)`. -/
def write_status (c : rl_connection) (msg : Bytes) : rl_connection :=
  write (write (write c (bytes "+")) (c_str msg)) (bytes "\r\n")

/-- The loop of `inc`; the first argument is `i + 1` for the loop variable
`i`. The result is the buffer `out` and the flag `done`, or `none` when the
`default` case is reached. -/
def inc_loop : Nat → Bytes → Option (Bytes × Bool)
  | 0, out => some (out, false)
  | i + 1, out =>
    if 48 ≤ out.getD i 0 ∧ out.getD i 0 ≤ 56 then some (out.set i (out.getD i 0 + 1), true)
    else if out.getD i 0 = 57 then inc_loop i (out.set i 48)
    else none

/-- Function `static int inc(rl_connection* c, char* b)`. The source drops
the pointer `realloc(out, out_size + 1)` returns and goes on with `out`:
when `realloc` did not hand back the same block, resized, the `memmove`, the
store `out[0] = '1'`, `leveldb_put` and `write` use a pointer that names no
block of `out_size + 1` bytes, and the result is `none`. The block is the
one `leveldb_get` or `strdup("0")` allocated, of the length of `out0`.
`int i = out_size - 1` is the `size_t` difference converted to `int`. -/
def inc (c : rl_connection) (b : Nat) : Option (Int × rl_connection) :=
  match rd c.read_buffer b with
  | none => none
  | some ch =>
    if ch ≠ 36 then some (-1, c)
    else
      match get_int c.read_buffer (b + 1) with
      | none => none
      | some (size, b1) =>
        match rd_bytes c.read_buffer b1 size with
        | none => none
        | some key =>
          let r := leveldb_get c.server.db key none
          let c1 := { c with server := { c.server with db := r.db } }
          let c2 := match r.err with
            | some e => error c1 e
            | none => c1
          let out0 : Bytes := match r.err, r.out with
            | none, some v => v
            | _, _ => [48, 0]
          let i0 : Int := wrap_int (((r.vallen : Int) - 1) % (SIZE_MOD : Int))
          match inc_loop (i0 + 1).toNat out0 with
          | none => some (1, write_error c2 (bytes "bad key type"))
          | some (out1, done) =>
            if done = false ∧
                c.server.realloc_same out0.length ((r.vallen + 1) % SIZE_MOD) = false then none
            else
            let out := if done then out1 else 49 :: out1.take r.vallen
            let out_size := if done then r.vallen else (r.vallen + 1) % SIZE_MOD
            let p := leveldb_put c2.server.db key (out.take out_size) r.err
            let c3 := { c2 with server := { c2.server with db := p.db } }
            match p.err with
            | some e => some (1, write_error c3 e)
            | none =>
              some (1, write (write (write c3 (bytes ":")) (out.take out_size)) (bytes "\r\n"))

/-- Function `static int set(rl_connection* c, char* b)`. -/
def set (c : rl_connection) (b : Nat) : Option (Int × rl_connection) :=
  match rd c.read_buffer b with
  | none => none
  | some ch =>
    if ch ≠ 36 then some (-1, c)
    else
      match get_int c.read_buffer (b + 1) with
      | none => none
      | some (key_size, key) =>
        match rd c.read_buffer (key + key_size + 2) with
        | none => none
        | some ch2 =>
          if ch2 ≠ 36 then some (-1, c)
          else
            match get_int c.read_buffer (key + key_size + 2 + 1) with
            | none => none
            | some (val_size, val) =>
              match wr c.read_buffer (key + key_size) 0 with
              | none => none
              | some buf1 =>
                match wr buf1 (val + val_size) 0 with
                | none => none
                | some buf2 =>
                  match rd_bytes buf2 key key_size, rd_bytes buf2 val val_size with
                  | some k, some v =>
                    let p := leveldb_put c.server.db k v none
                    let c1 := { c with read_buffer := buf2, server := { c.server with db := p.db } }
                    let c2 := match p.err with
                      | some e => error c1 e
                      | none => c1
                    some (1, write_status c2 (bytes "OK"))
                  | _, _ => none

/-- The test `memcmp(b, s, n) == 0` for the `n` bytes of the literal `s`. -/
def memcmp_eq (buf : Nat → Nat) (b : Nat) (s : Bytes) : Option Bool :=
  match rd_bytes buf b s.length with
  | none => none
  | some x => some (x == s)

/-- Function `static int handle(rl_connection* c)`. -/
def handle (c : rl_connection) : Option (Int × rl_connection) :=
  if c.read_buffer 0 ≠ 42 then some (-1, c)
  else
    match get_int c.read_buffer 1 with
    | none => none
    | some (count, b) =>
      if count = 2 then
        match rd c.read_buffer b with
        | none => none
        | some ch =>
          if ch ≠ 36 then some (-1, c)
          else
            match get_int c.read_buffer (b + 1) with
            | none => none
            | some (size, b1) =>
              if size = 3 then
                match memcmp_eq c.read_buffer b1 (bytes "get") with
                | none => none
                | some true => get c (b1 + 5)
                | some false => some (1, write_error c (bytes "unknown command"))
              else if size = 4 then
                match memcmp_eq c.read_buffer b1 (bytes "incr") with
                | none => none
                | some true => inc c (b1 + 6)
                | some false => some (1, write_error c (bytes "unknown command"))
              else some (1, write_error c (bytes "unknown command"))
      else if count = 3 then
        match rd c.read_buffer b with
        | none => none
        | some ch =>
          if ch ≠ 36 then some (-1, c)
          else
            match get_int c.read_buffer (b + 1) with
            | none => none
            | some (size, b1) =>
              if size = 3 then
                match memcmp_eq c.read_buffer b1 (bytes "set") with
                | none => none
                | some true => set c (b1 + size + 2)
                | some false => some (1, write_error c (bytes "unknown command"))
              else some (1, write_error c (bytes "unknown command"))
      else if count = 4 then some (1, write_error c (bytes "unknown command"))
      else some (1, c)

/-- What `recv` stores at `recv_buffer` when it returns the length of `d`:
the bytes of `d`, the rest of the buffer as it was. -/
def recv_store (buf : Nat → Nat) (offset : Nat) (d : Bytes) : Nat → Nat :=
  fun j => if offset ≤ j ∧ j < offset + d.length then d.getD (j - offset) 0 else buf j

/-- The part of `on_readable` after `handle` returned `ret`. -/
def on_readable_ret (ret : Int) (c : rl_connection) : rl_connection :=
  if ret = -1 then { error c (bytes "bad protocol error") with buffered_data := 0 }
  else if ret = 1 then { c with buffered_data := 0 }
  else if ret = 0 then c
  else error c (bytes "unknown return error")

/-- Function `static void on_readable(struct ev_loop*, ev_io*, int revents)`
for the connection of the watcher. `ev_error` says whether `revents` has the
bit `EV_ERROR`; `r` is what `recv` does: `none` for a negative result,
`some d` when it stores the bytes `d` and returns their number. The result
is `none` when `recv` stores past the end of `read_buffer` or when the NUL
after the received bytes falls outside of it. -/
def on_readable (c : rl_connection) (ev_error : Bool) (r : Option Bytes) :
    Option rl_connection :=
  let offset : Nat := (c.buffered_data % (SIZE_MOD : Int)).toNat
  let left : Int := wrap_int ((((READ_BUFFER : Int) - (offset : Int)) % (SIZE_MOD : Int)))
  if left = 0 then some c
  else if ev_error then
    some (error c (bytes "on_readable() got error event, closing connection."))
  else
    match r with
    | none => some c
    | some d =>
      if d.length = 0 then some { c with reading := false, fd_open := false }
      else if READ_BUFFER < offset + d.length then none
      else
        match wr (recv_store c.read_buffer offset d) (offset + d.length) 0 with
        | none => none
        | some buf =>
          match handle { c with read_buffer := buf,
                                buffered_data := wrap_int (c.buffered_data + (d.length : Int)) } with
          | none => none
          | some (ret, c1) => some (on_readable_ret ret c1)

/-- Function `rl_connection* new_connection(rl_server* s, int fd)`: `malloc`
leaves `buffered_data` and `read_buffer` with whatever the block held,
given here as `junk_data` and `junk_buffer`. -/
def new_connection (s : rl_server) (junk_data : Int) (junk_buffer : Nat → Nat) :
    rl_connection :=
  { fd_out := [], fd_open := true, reading := false,
    buffered_data := junk_data, read_buffer := junk_buffer, server := s }

/-! ## Vocabulary of the statements -/

/-- The buffer starts with the bytes `s`. -/
def starts_with (buf : Nat → Nat) (s : Bytes) : Prop :=
  ∀ i, i < s.length → buf i = s.getD i 0

instance starts_with_decidable (buf : Nat → Nat) (s : Bytes) : Decidable (starts_with buf s) := by
  unfold starts_with; infer_instance

/-- Every byte is an ASCII digit. -/
def is_digits (s : Bytes) : Prop := ∀ x ∈ s, 48 ≤ x ∧ x ≤ 57

instance is_digits_decidable (s : Bytes) : Decidable (is_digits s) := by
  unfold is_digits; infer_instance

/-- The number a string of ASCII digits denotes in decimal. -/
def decval (s : Bytes) : Nat := s.foldl (fun a x => 10 * a + (x - 48)) 0

/-- A buffer holding the bytes `s` from index 0 on and NUL bytes after them. -/
def buffer_of (s : Bytes) : Nat → Nat := fun i => s.getD i 0

/-- A storage engine that works and holds `data`. -/
def db_of (data : List (Bytes × Bytes)) : leveldb_t :=
  { data := data, get_err := none, put_err := none, calls := [] }

/-- A connection being read, with nothing written so far, an empty buffer
(`buffered_data = 0`) over the memory `buf`, and the engine `db`. -/
def conn_of (buf : Nat → Nat) (db : leveldb_t) : rl_connection :=
  { fd_out := [], fd_open := true, reading := true, buffered_data := 0,
    read_buffer := buf, server := { db := db, stdout := [] } }

/-- Successive `on_readable` calls, one for each delivery of bytes. -/
def deliver (c : rl_connection) : List Bytes → Option rl_connection
  | [] => some c
  | d :: ds =>
    match on_readable c false (some d) with
    | none => none
    | some c1 => deliver c1 ds

/-- The frame of `SET k v`. -/
def set_frame (k : Bytes) (v : Bytes) : Bytes :=
  bytes "*3\r\n$3\r\nset\r\n$" ++ sprintf_ld k.length ++ bytes "\r\n" ++ k ++
    bytes "\r\n$" ++ sprintf_ld v.length ++ bytes "\r\n" ++ v ++ bytes "\r\n"

/-- The frame of `GET k`. -/
def get_frame (k : Bytes) : Bytes :=
  bytes "*2\r\n$3\r\nget\r\n$" ++ sprintf_ld k.length ++ bytes "\r\n" ++ k ++ bytes "\r\n"

/-- The frame of `INCR k`. -/
def incr_frame (k : Bytes) : Bytes :=
  bytes "*2\r\n$4\r\nincr\r\n$" ++ sprintf_ld k.length ++ bytes "\r\n" ++ k ++ bytes "\r\n"


/-- The variable `offset` of `on_readable`: `buffered_data` as a `size_t`. -/
def on_readable_offset (c : rl_connection) : Nat :=
  (c.buffered_data % (SIZE_MOD : Int)).toNat

/-- The variable `left` of `on_readable`: the length `recv` is asked for. -/
def on_readable_left (c : rl_connection) : Int :=
  wrap_int (((READ_BUFFER : Int) - (on_readable_offset c : Int)) % (SIZE_MOD : Int))

/-- The index of `read_buffer` at which `recv_buffer[recved] = 0` stores the
NUL when `recv` returned the length of `d`. -/
def nul_index (c : rl_connection) (d : Bytes) : Nat := on_readable_offset c + d.length

/-- Between the states `c` and `c1` the storage engine was called as one
command calls it: not at all, for one lookup, for one write, or for one
lookup followed by one write of the same key. -/
def one_command_calls (c : rl_connection) (c1 : rl_connection) : Prop :=
  ∃ l, c1.server.db.calls = c.server.db.calls ++ l ∧
    (l = [] ∨ (∃ k, l = [db_call.get k]) ∨ (∃ k v, l = [db_call.put k v]) ∨
      (∃ k v, l = [db_call.get k, db_call.put k v]))

/-- A connection like `conn_of buf db` in a process whose allocator moves
every block that `realloc` is asked to resize. -/
def conn_moving (buf : Nat → Nat) (db : leveldb_t) : rl_connection :=
  { fd_out := [], fd_open := true, reading := true, buffered_data := 0,
    read_buffer := buf, server := { db := db, stdout := [], realloc_same := fun _ _ => false } }

/-- Two buffers hold the same bytes at the indices `0` to `n`: the `n`
received bytes and the NUL stored after them. -/
def agree_upto (buf1 : Nat → Nat) (buf2 : Nat → Nat) (n : Nat) : Prop :=
  ∀ i, i < n + 1 → buf1 i = buf2 i

instance agree_upto_decidable (buf1 : Nat → Nat) (buf2 : Nat → Nat) (n : Nat) :
    Decidable (agree_upto buf1 buf2 n) := by
  unfold agree_upto; infer_instance

/-! ## Theorems -/

theorem handle_get_frame (c : rl_connection)
    (h : starts_with c.read_buffer (bytes "*2\r\n$3\r\nget\r\n")) :
    handle c = get c 13 := by
  have h0 := h 0 (by decide)
  have h1 := h 1 (by decide)
  have h2 := h 2 (by decide)
  have h4 := h 4 (by decide)
  have h5 := h 5 (by decide)
  have h6 := h 6 (by decide)
  have h8 := h 8 (by decide)
  have h9 := h 9 (by decide)
  have h10 := h 10 (by decide)
  simp [bytes] at h0 h1 h2 h4 h5 h6 h8 h9 h10
  simp [handle, get_int, get_int_loop, READ_BUFFER, h0, h1, h2, h4, h5, h6, h8, h9, h10, rd,
    memcmp_eq, rd_bytes, char_val, SIZE_MOD, bytes, List.range, List.range.loop]

theorem handle_incr_frame (c : rl_connection)
    (h : starts_with c.read_buffer (bytes "*2\r\n$4\r\nincr\r\n")) :
    handle c = inc c 14 := by
  have h0 := h 0 (by decide)
  have h1 := h 1 (by decide)
  have h2 := h 2 (by decide)
  have h4 := h 4 (by decide)
  have h5 := h 5 (by decide)
  have h6 := h 6 (by decide)
  have h8 := h 8 (by decide)
  have h9 := h 9 (by decide)
  have h10 := h 10 (by decide)
  have h11 := h 11 (by decide)
  simp [bytes] at h0 h1 h2 h4 h5 h6 h8 h9 h10 h11
  simp [handle, get_int, get_int_loop, READ_BUFFER, h0, h1, h2, h4, h5, h6, h8, h9, h10, h11, rd,
    memcmp_eq, rd_bytes, char_val, SIZE_MOD, bytes, List.range, List.range.loop]

theorem starts_with_of_append (buf : Nat → Nat) (s : Bytes) (t : Bytes)
    (h : starts_with buf (s ++ t)) : starts_with buf s := by
  intro i hi
  have := h i (by simp; omega)
  simpa [List.getD_eq_getElem?_getD, List.getElem?_append_left hi] using this

theorem get_absent (c : rl_connection) (b size b1 : Nat) (key : Bytes)
    (hb : rd c.read_buffer b = some 36)
    (hsz : get_int c.read_buffer (b + 1) = some (size, b1))
    (hkey : rd_bytes c.read_buffer b1 size = some key)
    (habs : (leveldb_get c.server.db key none).out = none) :
    ∃ c1, get c b = some (1, c1) ∧ c1.fd_out = c.fd_out ++ bytes "$-1\r\n" ∧
      c1.server.db.data = c.server.db.data ∧
      c1.server.db.calls = c.server.db.calls ++ [db_call.get key] := by
  simp only [get, hb, hsz, hkey]
  cases hg : c.server.db.get_err with
  | some e => simp [leveldb_get, hg, write, error]
  | none =>
    cases hl : c.server.db.data.lookup key with
    | some v => simp [leveldb_get, hg, hl] at habs
    | none => simp [leveldb_get, hg, hl, write]

theorem decval_snoc (s : Bytes) (x : Nat) : decval (s ++ [x]) = 10 * decval s + (x - 48) := by
  simp [decval, List.foldl_append]

theorem is_digits_snoc (s : Bytes) (x : Nat) :
    is_digits (s ++ [x]) ↔ is_digits s ∧ 48 ≤ x ∧ x ≤ 57 := by
  simp only [is_digits, List.mem_append, List.mem_singleton]
  constructor
  · intro h
    exact ⟨fun y hy => h y (Or.inl hy), h x (Or.inr rfl)⟩
  · rintro ⟨h1, h2⟩ y (hy | rfl)
    · exact h1 y hy
    · exact h2

theorem getD_mid (p : Bytes) (x : Nat) (q : Bytes) : (p ++ x :: q).getD p.length 0 = x := by
  induction p with
  | nil => rfl
  | cons a p ih => simpa using ih

theorem set_mid (p : Bytes) (x y : Nat) (q : Bytes) :
    (p ++ x :: q).set p.length y = p ++ y :: q := by
  simp [List.set_append_right]

/-- The loop of `inc` on a run of digits `p` followed by `q`: either some
digit of `p` is not `9` and the run is replaced by its successor of the same
length, or the run is all `9` and is replaced by zeros. -/
theorem inc_loop_digits (p : Bytes) : ∀ q : Bytes, is_digits p →
    (∃ t, inc_loop p.length (p ++ q) = some (t ++ q, true) ∧ t.length = p.length ∧
        is_digits t ∧ decval t = decval p + 1 ∧ ∃ x ∈ p, x ≠ 57) ∨
    (inc_loop p.length (p ++ q) = some (List.replicate p.length 48 ++ q, false) ∧
        ∀ x ∈ p, x = 57) := by
  induction p using List.reverseRecOn with
  | nil => intro q _; right; simp [inc_loop]
  | append_singleton p x ih =>
    intro q hd
    rw [is_digits_snoc] at hd
    obtain ⟨hp, hx1, hx2⟩ := hd
    have hlen : (p ++ [x]).length = p.length + 1 := by simp
    have hcat : p ++ [x] ++ q = p ++ x :: q := by simp
    rw [hlen, hcat]
    by_cases hx : x ≤ 56
    · left
      refine ⟨p ++ [x + 1], ?_, by simp, ?_, ?_, x, by simp, by omega⟩
      · simp only [inc_loop, getD_mid, set_mid]
        simp [hx1, hx]
      · rw [is_digits_snoc]; exact ⟨hp, by omega, by omega⟩
      · rw [decval_snoc, decval_snoc]; omega
    · have hx9 : x = 57 := by omega
      subst hx9
      have hstep : inc_loop (p.length + 1) (p ++ 57 :: q) = inc_loop p.length (p ++ 48 :: q) := by
        simp only [inc_loop, getD_mid, set_mid]
        simp
      rw [hstep]
      rcases ih (48 :: q) hp with ⟨t, h1, h2, h3, h4, y, hy, hy9⟩ | ⟨h1, h2⟩
      · left
        refine ⟨t ++ [48], ?_, by simp [h2], ?_, ?_, y, by simp [hy], hy9⟩
        · simp [h1]
        · rw [is_digits_snoc]; exact ⟨h3, by omega, by omega⟩
        · rw [decval_snoc, decval_snoc, h4]; omega
      · right
        refine ⟨?_, ?_⟩
        · rw [h1, List.replicate_succ']; simp
        · intro y hy
          rcases List.mem_append.mp hy with h | h
          · exact h2 y h
          · simpa using h

theorem decval_nines (n : Nat) :
    decval (49 :: List.replicate n 48) = decval (List.replicate n 57) + 1 := by
  induction n with
  | zero => simp [decval]
  | succ n ih =>
    rw [List.replicate_succ', List.replicate_succ', ← List.cons_append, decval_snoc, decval_snoc, ih]
    omega

theorem is_digits_one_zeros (n : Nat) : is_digits (49 :: List.replicate n 48) := by
  intro x hx
  simp only [List.mem_cons, List.mem_replicate] at hx
  rcases hx with rfl | ⟨_, rfl⟩ <;> omega

theorem inc_start (n : Nat) (h1 : 0 < n) (h2 : n < 2147483648) :
    (wrap_int (((n : Int) - 1) % (SIZE_MOD : Int)) + 1).toNat = n := by
  simp only [wrap_int, SIZE_MOD]
  omega

/-- The digit-array increment of `inc` on a non-empty stored value `s` made
of ASCII digits (shorter than `2^31` bytes, so that its last index fits the
`int` loop variable), with an allocator that hands back the same block when
`s` is all `9`: `inc` returns 1 after one `leveldb_put` call that writes
under the key a digit string `t` whose decimal value is that of `s` plus
one; `t` is as long as `s` unless `s` is all `9`, where `t` is `1` followed
by as many zeros; when the engine accepts the write, `t` is the value stored
under the key and the reply is `:t\r\n`. -/
theorem inc_digit_string (c : rl_connection) (b size b1 : Nat) (key s : Bytes)
    (hb : rd c.read_buffer b = some 36)
    (hsz : get_int c.read_buffer (b + 1) = some (size, b1))
    (hkey : rd_bytes c.read_buffer b1 size = some key)
    (hget : (leveldb_get c.server.db key none).out = some s)
    (hne : s ≠ []) (hlen : s.length < 2147483648) (hdig : is_digits s)
    (hre : (∀ x ∈ s, x = 57) → c.server.realloc_same s.length (s.length + 1) = true) :
    ∃ t c1, inc c b = some (1, c1) ∧ is_digits t ∧ decval t = decval s + 1 ∧
      ((∃ x ∈ s, x ≠ 57) → t.length = s.length) ∧
      ((∀ x ∈ s, x = 57) → t = 49 :: List.replicate s.length 48) ∧
      c1.server.db.calls = c.server.db.calls ++ [db_call.get key, db_call.put key t] ∧
      (c.server.db.put_err = none →
        c1.server.db.data.lookup key = some t ∧
        c1.fd_out = c.fd_out ++ bytes ":" ++ t ++ bytes "\r\n") := by
  have hpos : 0 < s.length := List.length_pos.mpr hne
  have hge : c.server.db.get_err = none := by
    cases hg : c.server.db.get_err with
    | none => rfl
    | some e => simp [leveldb_get, hg] at hget
  have hlk : c.server.db.data.lookup key = some s := by
    cases hl : c.server.db.data.lookup key with
    | none => simp [leveldb_get, hge, hl] at hget
    | some v => simpa [leveldb_get, hge, hl] using hget
  have hr : leveldb_get c.server.db key none =
      { out := some s, vallen := s.length, err := none,
        db := { c.server.db with calls := c.server.db.calls ++ [db_call.get key] } } := by
    simp [leveldb_get, hge, hlk]
  simp only [inc, hb, hsz, hkey, hr, inc_start s.length hpos hlen]
  have hloop := inc_loop_digits s [] hdig
  simp only [List.append_nil] at hloop
  rcases hloop with ⟨t, h1, h2, h3, h4, h5⟩ | ⟨h1, h2⟩
  · refine ⟨t, ?_⟩
    have htake : List.take s.length t = t := by rw [← h2]; exact List.take_length t
    have hnot : (∀ x ∈ s, x = 57) → t = 49 :: List.replicate s.length 48 := by
      intro h9
      obtain ⟨x, hx, hx9⟩ := h5
      exact absurd (h9 x hx) hx9
    simp only [h1]
    cases hput : c.server.db.put_err <;>
      simp [leveldb_put, hput, write, write_error, htake, h2, h3, h4] <;>
      exact hnot
  · refine ⟨49 :: List.replicate s.length 48, ?_⟩
    have hs : s = List.replicate s.length 57 := List.eq_replicate_iff.mpr ⟨rfl, h2⟩
    have hsz1 : (s.length + 1) % SIZE_MOD = s.length + 1 := by
      apply Nat.mod_eq_of_lt
      simp only [SIZE_MOD]; omega
    have hd : decval (49 :: List.replicate s.length 48) = decval s + 1 := by
      rw [decval_nines]; rw [← hs]
    have hsame := hre h2
    simp only [h1]
    cases hput : c.server.db.put_err <;>
      simp [leveldb_put, hput, write, write_error, hsz1, is_digits_one_zeros, hd, hsame] <;>
      exact h2

/-- The stored value `099` under the key `k`: `inc` writes `100` and replies
`:100\r\n`. -/
theorem inc_digit_string_example :
    ∃ t c1, inc (conn_of (buffer_of (bytes "$1\r\nk\r\n")) (db_of [([107], bytes "099")])) 0
        = some (1, c1) ∧ is_digits t ∧ decval t = decval (bytes "099") + 1 ∧
      ((∃ x ∈ bytes "099", x ≠ 57) → t.length = (bytes "099").length) ∧
      ((∀ x ∈ bytes "099", x = 57) → t = 49 :: List.replicate (bytes "099").length 48) ∧
      c1.server.db.calls = [] ++ [db_call.get [107], db_call.put [107] t] ∧
      ((db_of [([107], bytes "099")]).put_err = none →
        c1.server.db.data.lookup [107] = some t ∧
        c1.fd_out = [] ++ bytes ":" ++ t ++ bytes "\r\n") :=
  inc_digit_string (conn_of (buffer_of (bytes "$1\r\nk\r\n")) (db_of [([107], bytes "099")]))
    0 1 4 [107] (bytes "099") (by decide) (by decide) (by decide) (by decide)
    (by decide) (by decide) (by decide) (by decide)

/-- C2: the value `999999999999999999999999` (24 digits) is stored under `k`
and the allocator moves the block that `realloc(out, 25)` is asked to grow:
`inc` drops the pointer `realloc` returns and shifts, stores and sends the
bytes behind the old pointer, which names no block any more, so that no
result is defined, where the claim has `1` followed by 24 zeros stored and
sent. With an allocator that grows the block in place the same request is
answered with `:1000000000000000000000000\r\n`. -/
theorem C2_realloc_result_dropped :
    is_digits (List.replicate 24 57) ∧
    (handle (conn_moving (buffer_of (incr_frame (bytes "k")))
        (db_of [(bytes "k", List.replicate 24 57)]))).isNone = true ∧
    (handle (conn_of (buffer_of (incr_frame (bytes "k")))
        (db_of [(bytes "k", List.replicate 24 57)]))).map
        (fun r => (r.1, r.2.fd_out, r.2.server.db.data.lookup (bytes "k")))
      = some (1, bytes ":1" ++ List.replicate 24 48 ++ bytes "\r\n",
          some (49 :: List.replicate 24 48)) := by
  decide

theorem inc_absent (c : rl_connection) (b size b1 : Nat) (key : Bytes)
    (hb : rd c.read_buffer b = some 36)
    (hsz : get_int c.read_buffer (b + 1) = some (size, b1))
    (hkey : rd_bytes c.read_buffer b1 size = some key)
    (hge : c.server.db.get_err = none)
    (hlk : c.server.db.data.lookup key = none)
    (hput : c.server.db.put_err = none)
    (hre : c.server.realloc_same 2 1 = true) :
    ∃ c1, inc c b = some (1, c1) ∧ c1.fd_out = c.fd_out ++ bytes ":1\r\n" ∧
      c1.server.db.data = (key, [49]) :: c.server.db.data ∧
      c1.server.db.get_err = none ∧
      c1.server.db.calls = c.server.db.calls ++ [db_call.get key, db_call.put key [49]] := by
  have hr : leveldb_get c.server.db key none =
      { out := none, vallen := 0, err := none,
        db := { c.server.db with calls := c.server.db.calls ++ [db_call.get key] } } := by
    simp [leveldb_get, hge, hlk]
  have hi : (wrap_int ((((0 : Nat) : Int) - 1) % (SIZE_MOD : Int)) + 1).toNat = 0 := by decide
  simp only [inc, hb, hsz, hkey, hr, hi, inc_loop]
  have hb1 : bytes ":1\r\n" = bytes ":" ++ [49] ++ bytes "\r\n" := by decide
  simp [leveldb_put, hput, hge, write, SIZE_MOD, hb1, hre]

theorem get_present (c : rl_connection) (b size b1 : Nat) (key v : Bytes)
    (hb : rd c.read_buffer b = some 36)
    (hsz : get_int c.read_buffer (b + 1) = some (size, b1))
    (hkey : rd_bytes c.read_buffer b1 size = some key)
    (hge : c.server.db.get_err = none)
    (hlk : c.server.db.data.lookup key = some v) :
    ∃ c1, get c b = some (1, c1) ∧
      c1.fd_out = c.fd_out ++ 36 :: sprintf_ld v.length ++ bytes "\r\n" ++ v ++ bytes "\r\n" ∧
      c1.server.db.data = c.server.db.data := by
  simp [get, hb, hsz, hkey, leveldb_get, hge, hlk, write]

theorem starts_with_rd (buf : Nat → Nat) (s : Bytes) (i : Nat) (h : starts_with buf s)
    (hi : i < s.length) (hb : i < READ_BUFFER) : rd buf i = some (s.getD i 0) := by
  simp [rd, hb, h i hi]

/-- C10: a GET request whose key the storage lookup does not find (the key
is absent, or the lookup reports an error) is answered with exactly the five
bytes `$-1\r\n`, and the stored association is unchanged. -/
theorem C10_get_absent_key (c : rl_connection) (size b1 : Nat) (key : Bytes)
    (hframe : starts_with c.read_buffer (bytes "*2\r\n$3\r\nget\r\n$"))
    (hsz : get_int c.read_buffer 14 = some (size, b1))
    (hkey : rd_bytes c.read_buffer b1 size = some key)
    (habs : (leveldb_get c.server.db key none).out = none) :
    ∃ c1, handle c = some (1, c1) ∧ c1.fd_out = c.fd_out ++ bytes "$-1\r\n" ∧
      (bytes "$-1\r\n").length = 5 ∧
      c1.server.db.data = c.server.db.data ∧
      c1.server.db.calls = c.server.db.calls ++ [db_call.get key] := by
  have hd : handle c = get c 13 :=
    handle_get_frame c (starts_with_of_append c.read_buffer (bytes "*2\r\n$3\r\nget\r\n") [36] hframe)
  have hb : rd c.read_buffer 13 = some 36 :=
    starts_with_rd c.read_buffer _ 13 hframe (by decide) (by decide)
  obtain ⟨c1, h1, h2, h3, h4⟩ := get_absent c 13 size b1 key hb hsz hkey habs
  exact ⟨c1, hd.trans h1, h2, by decide, h3, h4⟩

/-- C10 at the request `GET k` over an empty store. -/
theorem C10_get_absent_key_witness :
    ∃ c1, handle (conn_of (buffer_of (get_frame [107])) (db_of [])) = some (1, c1) ∧
      c1.fd_out = [] ++ bytes "$-1\r\n" ∧ (bytes "$-1\r\n").length = 5 ∧
      c1.server.db.data = [] ∧ c1.server.db.calls = [] ++ [db_call.get [107]] :=
  C10_get_absent_key (conn_of (buffer_of (get_frame [107])) (db_of [])) 1 17 [107]
    (by decide) (by decide) (by decide) (by decide)

/-- What holds of INCR on an absent key when nothing goes wrong around it:
the lookup reports no error, the write is accepted, `realloc` hands back the
block of `strdup("0")`, and the GET request that follows makes `get` read
the same key bytes. Then the replies are `:1\r\n` and `$1\r\n1\r\n`. -/
theorem incr_absent_then_get (c : rl_connection) (size b1 : Nat) (key : Bytes)
    (hframe : starts_with c.read_buffer (bytes "*2\r\n$4\r\nincr\r\n$"))
    (hsz : get_int c.read_buffer 15 = some (size, b1))
    (hkey : rd_bytes c.read_buffer b1 size = some key)
    (hge : c.server.db.get_err = none)
    (hlk : c.server.db.data.lookup key = none)
    (hput : c.server.db.put_err = none)
    (hre : c.server.realloc_same 2 1 = true) :
    ∃ c1, handle c = some (1, c1) ∧ c1.fd_out = c.fd_out ++ bytes ":1\r\n" ∧
      c1.server.db.data.lookup key = some (bytes "1") ∧
      c1.server.db.calls = c.server.db.calls ++ [db_call.get key, db_call.put key (bytes "1")] ∧
      ∀ (c2 : rl_connection) (size2 b2 : Nat), c2.server.db = c1.server.db →
        starts_with c2.read_buffer (bytes "*2\r\n$3\r\nget\r\n$") →
        get_int c2.read_buffer 14 = some (size2, b2) →
        rd_bytes c2.read_buffer b2 size2 = some key →
        ∃ c3, handle c2 = some (1, c3) ∧ c3.fd_out = c2.fd_out ++ bytes "$1\r\n1\r\n" := by
  have hd : handle c = inc c 14 :=
    handle_incr_frame c (starts_with_of_append c.read_buffer (bytes "*2\r\n$4\r\nincr\r\n") [36] hframe)
  have hb : rd c.read_buffer 14 = some 36 :=
    starts_with_rd c.read_buffer _ 14 hframe (by decide) (by decide)
  obtain ⟨c1, h1, h2, h3, h4, h5⟩ := inc_absent c 14 size b1 key hb hsz hkey hge hlk hput hre
  have hone : bytes "1" = [49] := by decide
  refine ⟨c1, hd.trans h1, h2, ?_, ?_, ?_⟩
  · rw [h3, hone]; simp [List.lookup]
  · rw [h5, hone]
  · intro c2 size2 b2 hdb hframe2 hsz2 hkey2
    have hd2 : handle c2 = get c2 13 :=
      handle_get_frame c2
        (starts_with_of_append c2.read_buffer (bytes "*2\r\n$3\r\nget\r\n") [36] hframe2)
    have hb2 : rd c2.read_buffer 13 = some 36 :=
      starts_with_rd c2.read_buffer _ 13 hframe2 (by decide) (by decide)
    have hlk2 : c2.server.db.data.lookup key = some [49] := by
      rw [hdb, h3]; simp [List.lookup]
    obtain ⟨c3, g1, g2, _⟩ :=
      get_present c2 13 size2 b2 key [49] hb2 hsz2 hkey2 (by rw [hdb]; exact h4) hlk2
    refine ⟨c3, hd2.trans g1, ?_⟩
    rw [g2]
    have : (36 :: sprintf_ld ([49] : Bytes).length ++ bytes "\r\n" ++ [49] ++ bytes "\r\n")
        = bytes "$1\r\n1\r\n" := by decide
    simp only [List.append_assoc] at this ⊢
    rw [← this]

set_option maxRecDepth 100000 in
/-- C8: three INCR requests on a key without a stored value that are not
answered as the claim says. With an engine whose lookups report an error,
`INCR k` writes `1` under `k` and then replies `-Corruption\r\n`: the error
of the lookup is still in `err` after the write. With a key of 100 bytes `k`
(after a SET that left other bytes in the buffer), `INCR` replies `:1\r\n`
but stores `1` under the 1000 bytes `get_int` makes of the length `100`, and
the GET of the same key that follows replies `$-1\r\n`. With an allocator
that moves the block of `strdup("0")` on `realloc`, no result is defined. -/
theorem C8_incr_absent_not_one :
    (handle (conn_of (buffer_of (incr_frame (bytes "k")))
        { db_of [] with get_err := some (bytes "Corruption") })).map
        (fun r => (r.1, r.2.fd_out, r.2.server.db.data.lookup (bytes "k"), r.2.server.db.calls))
      = some (1, bytes "-Corruption\r\n", some (bytes "1"),
          [db_call.get (bytes "k"), db_call.put (bytes "k") (bytes "1")]) ∧
    (deliver (conn_of (fun _ => 0) (db_of []))
        [set_frame (bytes "x") (List.replicate 99 121), incr_frame (List.replicate 100 107),
          get_frame (List.replicate 100 107)]).map (fun c => c.fd_out)
      = some (bytes "+OK\r\n" ++ bytes ":1\r\n" ++ bytes "$-1\r\n") ∧
    (handle (conn_moving (buffer_of (incr_frame (bytes "k"))) (db_of []))).isNone = true := by
  decide

/-- C6: on the three digits `123` followed by `\r\n`, `get_int` returns 1203
where the digits denote 123 (the cursor does advance to the byte after the
`\r\n`): the accumulated value is multiplied by 1, 10, 100, ... instead of
by 10. -/
theorem C6_get_int_three_digits :
    get_int (buffer_of (bytes "123\r\n")) 0 = some (1203, 5) ∧
      decval (bytes "123") = 123 ∧ is_digits (bytes "123") := by
  decide

/-- C4: the correctly framed request `*1\r\n$4\r\nnope\r\n` gets no reply at
all: `handle` returns 1 with nothing written and no storage call; only the
arities 2, 3 and 4 reach a `write_error`. -/
theorem C4_arity_one_no_reply :
    (handle (conn_of (buffer_of (bytes "*1\r\n$4\r\nnope\r\n")) (db_of []))).map
        (fun r => (r.1, r.2.fd_out, r.2.server.db.calls)) = some (1, [], []) ∧
      (on_readable (conn_of (fun _ => 0) (db_of [])) false
          (some (bytes "*1\r\n$4\r\nnope\r\n"))).map
        (fun c => (c.fd_out, c.server.db.calls)) = some ([], []) := by
  decide

/-- C3: with the value `a8` stored under `k`, the request `INCR k` is
answered with `:a9\r\n` and `a9` is written under `k`: the scan stops at the
first byte from the right that is `0` to `8` and never looks at the bytes to
its left. -/
theorem C3_incr_nondigit_left :
    (handle (conn_of (buffer_of (incr_frame (bytes "k"))) (db_of [(bytes "k", bytes "a8")]))).map
        (fun r => (r.1, r.2.fd_out, r.2.server.db.data.lookup (bytes "k"), r.2.server.db.calls))
      = some (1, bytes ":a9\r\n", some (bytes "a9"),
          [db_call.get (bytes "k"), db_call.put (bytes "k") (bytes "a9")]) := by
  decide

/-- C5: the frame `GET k` delivered as `*2\r\n$3\r\nget\r\n` and then
`$1\r\nk\r\n` gets no reply at all (each part is taken for a whole frame,
found malformed and dropped), while delivered in one piece it is answered
with `$-1\r\n`. -/
theorem C5_split_delivery_differs :
    (deliver (conn_of (fun _ => 0) (db_of []))
        [bytes "*2\r\n$3\r\nget\r\n", bytes "$1\r\nk\r\n"]).map
        (fun c => (c.fd_out, c.buffered_data, c.server.db.calls))
      = some ([], 0, []) ∧
    (deliver (conn_of (fun _ => 0) (db_of []))
        [bytes "*2\r\n$3\r\nget\r\n" ++ bytes "$1\r\nk\r\n"]).map
        (fun c => (c.fd_out, c.buffered_data, c.server.db.calls))
      = some (bytes "$-1\r\n", 0, [db_call.get (bytes "k")]) := by
  decide

/-- C9: a buffer holding only `*2\r\n$3\r\nget\r\n$5\r\nab`, a proper part of
a GET frame whose key has 5 bytes, is not reported as incomplete: `handle`
returns 1, looks up the two received bytes followed by three bytes that were
never received, replies `$-1\r\n`, and `on_readable` resets `buffered_data`
to 0. -/
theorem C9_incomplete_frame_handled :
    (handle (conn_of (buffer_of (bytes "*2\r\n$3\r\nget\r\n$5\r\nab")) (db_of []))).map
        (fun r => (r.1, r.2.fd_out, r.2.server.db.calls))
      = some (1, bytes "$-1\r\n", [db_call.get [97, 98, 0, 0, 0]]) ∧
    (on_readable (conn_of (fun _ => 0) (db_of [])) false
        (some (bytes "*2\r\n$3\r\nget\r\n$5\r\nab"))).map
        (fun c => (c.fd_out, c.buffered_data)) = some (bytes "$-1\r\n", 0) := by
  decide

set_option maxRecDepth 100000 in
/-- C1: `SET k v` with a value `v` of 100 bytes `a`, followed by `GET k`: the
reply to the second frame is a bulk string of 1000 bytes (the value, its
`\r\n`, and 898 bytes of the buffer behind the frame), not `$100\r\n` with
the value: `get_int` reads the length `100` as 1000. -/
theorem C1_set_get_hundred_bytes :
    (set_frame (bytes "k") (List.replicate 100 97)).length < READ_BUFFER ∧
    ((deliver (conn_of (fun _ => 0) (db_of [])) [set_frame (bytes "k") (List.replicate 100 97)]).bind
        (fun c => on_readable { c with fd_out := [] } false (some (get_frame (bytes "k"))))).map
        (fun c => c.fd_out)
      = some (bytes "$1000\r\n" ++ (List.replicate 100 97 ++ bytes "\r\n" ++ List.replicate 898 0)
          ++ bytes "\r\n") ∧
    bytes "$1000\r\n" ++ (List.replicate 100 97 ++ bytes "\r\n" ++ List.replicate 898 0)
          ++ bytes "\r\n" ≠ bytes "$100\r\n" ++ List.replicate 100 97 ++ bytes "\r\n" := by
  decide

theorem handle_set_frame (c : rl_connection)
    (h : starts_with c.read_buffer (bytes "*3\r\n$3\r\nset\r\n")) :
    handle c = set c 13 := by
  have h0 := h 0 (by decide)
  have h1 := h 1 (by decide)
  have h2 := h 2 (by decide)
  have h4 := h 4 (by decide)
  have h5 := h 5 (by decide)
  have h6 := h 6 (by decide)
  have h8 := h 8 (by decide)
  have h9 := h 9 (by decide)
  have h10 := h 10 (by decide)
  simp [bytes] at h0 h1 h2 h4 h5 h6 h8 h9 h10
  simp [handle, get_int, get_int_loop, READ_BUFFER, h0, h1, h2, h4, h5, h6, h8, h9, h10, rd,
    memcmp_eq, rd_bytes, char_val, SIZE_MOD, bytes, List.range, List.range.loop]

/-- The three other places where a missing `$` is found: the key of `get`,
the key of `incr`, and the value of `set`; each frame is answered with -1
and nothing is written. -/
theorem missing_marker_examples :
    (handle (conn_of (buffer_of (bytes "*2\r\n$3\r\nget\r\nX1\r\nk\r\n")) (db_of []))).map
        (fun r => (r.1, r.2.fd_out, r.2.server.db.calls)) = some (-1, [], []) ∧
    (handle (conn_of (buffer_of (bytes "*2\r\n$4\r\nincr\r\nX1\r\nk\r\n")) (db_of []))).map
        (fun r => (r.1, r.2.fd_out, r.2.server.db.calls)) = some (-1, [], []) ∧
    (handle (conn_of (buffer_of (bytes "*3\r\n$3\r\nset\r\n$1\r\nk\r\nX1\r\nv\r\n")) (db_of []))).map
        (fun r => (r.1, r.2.fd_out, r.2.server.db.calls)) = some (-1, [], []) := by
  decide

theorem leveldb_get_calls (db : leveldb_t) (key : Bytes) (e : Option Bytes) :
    (leveldb_get db key e).db.calls = db.calls ++ [db_call.get key] := by
  unfold leveldb_get
  cases db.get_err <;> simp
  cases db.data.lookup key <;> simp

theorem leveldb_put_calls (db : leveldb_t) (key val : Bytes) (e : Option Bytes) :
    (leveldb_put db key val e).db.calls = db.calls ++ [db_call.put key val] := by
  unfold leveldb_put
  cases db.put_err <;> simp

theorem calls_same (c c1 : rl_connection) (h : c1.server.db.calls = c.server.db.calls) :
    one_command_calls c c1 :=
  ⟨[], by simp [h], Or.inl rfl⟩

theorem calls_get (c c1 : rl_connection) (key : Bytes) (e : Option Bytes)
    (h : c1.server.db.calls = (leveldb_get c.server.db key e).db.calls) :
    one_command_calls c c1 :=
  ⟨[db_call.get key], by rw [h, leveldb_get_calls], Or.inr (Or.inl ⟨key, rfl⟩)⟩

theorem calls_put (c c1 : rl_connection) (key val : Bytes) (e : Option Bytes)
    (h : c1.server.db.calls = (leveldb_put c.server.db key val e).db.calls) :
    one_command_calls c c1 :=
  ⟨[db_call.put key val], by rw [h, leveldb_put_calls], Or.inr (Or.inr (Or.inl ⟨key, val, rfl⟩))⟩

theorem calls_get_put (c c1 : rl_connection) (key val : Bytes) (e e1 : Option Bytes)
    (h : c1.server.db.calls =
      (leveldb_put (leveldb_get c.server.db key e).db key val e1).db.calls) :
    one_command_calls c c1 :=
  ⟨[db_call.get key, db_call.put key val],
    by rw [h, leveldb_put_calls, leveldb_get_calls]; simp,
    Or.inr (Or.inr (Or.inr ⟨key, val, rfl⟩))⟩

theorem get_shape (c : rl_connection) (b : Nat) (ret : Int) (c1 : rl_connection)
    (h : get c b = some (ret, c1)) : (ret = 1 ∨ ret = -1) ∧ one_command_calls c c1 := by
  simp only [get] at h
  split at h
  · simp at h
  · split at h
    · simp at h
      obtain ⟨rfl, rfl⟩ := h
      exact ⟨Or.inr rfl, calls_same _ _ rfl⟩
    · split at h
      · simp at h
      · split at h
        · simp at h
        · split at h
          · simp at h
            obtain ⟨rfl, rfl⟩ := h
            exact ⟨Or.inl rfl, calls_get _ _ _ none (by simp [write, error]; rfl)⟩
          · split at h
            · simp at h
              obtain ⟨rfl, rfl⟩ := h
              exact ⟨Or.inl rfl, calls_get _ _ _ none (by simp [write]; rfl)⟩
            · simp at h
              obtain ⟨rfl, rfl⟩ := h
              exact ⟨Or.inl rfl, calls_get _ _ _ none (by simp [write]; rfl)⟩

theorem inc_shape (c : rl_connection) (b : Nat) (ret : Int) (c1 : rl_connection)
    (h : inc c b = some (ret, c1)) : (ret = 1 ∨ ret = -1) ∧ one_command_calls c c1 := by
  simp only [inc] at h
  split at h
  · simp at h
  · split at h
    · simp at h
      obtain ⟨rfl, rfl⟩ := h
      exact ⟨Or.inr rfl, calls_same _ _ rfl⟩
    · split at h
      · simp at h
      · split at h
        · simp at h
        · rename_i key hkey
          split at h
          · simp at h
            obtain ⟨rfl, rfl⟩ := h
            refine ⟨Or.inl rfl, calls_get _ _ key none ?_⟩
            split <;> simp [error, write_error, write]
          · rename_i out1 done hloop
            split at h
            · simp at h
            · split at h
              · rename_i e he
                simp at h
                obtain ⟨rfl, rfl⟩ := h
                refine ⟨Or.inl rfl, calls_get_put _ _ key
                  (List.take (if done = true then (leveldb_get c.server.db key none).vallen
                      else ((leveldb_get c.server.db key none).vallen + 1) % SIZE_MOD)
                    (if done = true then out1
                      else 49 :: List.take (leveldb_get c.server.db key none).vallen out1))
                  none (leveldb_get c.server.db key none).err ?_⟩
                split <;> simp [error, write_error, write]
              · simp at h
                obtain ⟨rfl, rfl⟩ := h
                refine ⟨Or.inl rfl, calls_get_put _ _ key
                  (List.take (if done = true then (leveldb_get c.server.db key none).vallen
                      else ((leveldb_get c.server.db key none).vallen + 1) % SIZE_MOD)
                    (if done = true then out1
                      else 49 :: List.take (leveldb_get c.server.db key none).vallen out1))
                  none (leveldb_get c.server.db key none).err ?_⟩
                split <;> simp [error, write]

theorem set_shape (c : rl_connection) (b : Nat) (ret : Int) (c1 : rl_connection)
    (h : set c b = some (ret, c1)) : (ret = 1 ∨ ret = -1) ∧ one_command_calls c c1 := by
  simp only [set] at h
  split at h
  · simp at h
  · split at h
    · simp at h
      obtain ⟨rfl, rfl⟩ := h
      exact ⟨Or.inr rfl, calls_same _ _ rfl⟩
    · split at h
      · simp at h
      · split at h
        · simp at h
        · split at h
          · simp at h
            obtain ⟨rfl, rfl⟩ := h
            exact ⟨Or.inr rfl, calls_same _ _ rfl⟩
          · split at h
            · simp at h
            · split at h
              · simp at h
              · split at h
                · simp at h
                · split at h
                  · rename_i k v hk hv
                    simp at h
                    obtain ⟨rfl, rfl⟩ := h
                    refine ⟨Or.inl rfl, calls_put _ _ k v none ?_⟩
                    split <;> simp [error, write_status, write]
                  · simp at h

theorem handle_shape (c : rl_connection) (ret : Int) (c1 : rl_connection)
    (h : handle c = some (ret, c1)) : (ret = 1 ∨ ret = -1) ∧ one_command_calls c c1 := by
  have hm : ∀ (x : Option (Int × rl_connection)), x = some (ret, c1) →
      x = some (-1, c) ∨ x = some (1, c) ∨
      x = some (1, write_error c (bytes "unknown command")) →
      (ret = 1 ∨ ret = -1) ∧ one_command_calls c c1 := by
    intro x hx hcase
    rw [hx] at hcase
    rcases hcase with h1 | h1 | h1 <;> simp at h1 <;> obtain ⟨rfl, rfl⟩ := h1
    · exact ⟨Or.inr rfl, calls_same _ _ rfl⟩
    · exact ⟨Or.inl rfl, calls_same _ _ rfl⟩
    · exact ⟨Or.inl rfl, calls_same _ _ rfl⟩
  simp only [handle] at h
  split at h
  · exact hm _ h (Or.inl rfl)
  · split at h
    · simp at h
    · split at h
      · split at h
        · simp at h
        · split at h
          · exact hm _ h (Or.inl rfl)
          · split at h
            · simp at h
            · split at h
              · split at h
                · simp at h
                · exact get_shape c _ ret c1 h
                · exact hm _ h (Or.inr (Or.inr rfl))
              · split at h
                · split at h
                  · simp at h
                  · exact inc_shape c _ ret c1 h
                  · exact hm _ h (Or.inr (Or.inr rfl))
                · exact hm _ h (Or.inr (Or.inr rfl))
      · split at h
        · split at h
          · simp at h
          · split at h
            · exact hm _ h (Or.inl rfl)
            · split at h
              · simp at h
              · split at h
                · split at h
                  · simp at h
                  · exact set_shape c _ ret c1 h
                  · exact hm _ h (Or.inr (Or.inr rfl))
                · exact hm _ h (Or.inr (Or.inr rfl))
        · split at h
          · exact hm _ h (Or.inr (Or.inr rfl))
          · exact hm _ h (Or.inr (Or.inl rfl))

theorem on_readable_ret_fd_out (ret : Int) (c : rl_connection) :
    (on_readable_ret ret c).fd_out = c.fd_out := by
  unfold on_readable_ret
  split_ifs <;> simp [error]

theorem on_readable_ret_calls (ret : Int) (c : rl_connection) :
    (on_readable_ret ret c).server.db.calls = c.server.db.calls := by
  unfold on_readable_ret
  split_ifs <;> simp [error]

theorem on_readable_ret_cursor (ret : Int) (c : rl_connection) (h : ret = 1 ∨ ret = -1) :
    (on_readable_ret ret c).buffered_data = 0 := by
  rcases h with rfl | rfl <;> simp [on_readable_ret]

/-- One `on_readable` call either leaves the cursor, the socket output and
the storage calls as they were, or it received bytes, ran `handle` once on
them, called the storage engine as one command does, and reset the
cursor. -/
theorem on_readable_cases (c c1 : rl_connection) (ev : Bool) (r : Option Bytes)
    (h : on_readable c ev r = some c1) :
    (c1.buffered_data = c.buffered_data ∧
      (c1.fd_out = c.fd_out ∧ c1.server.db.calls = c.server.db.calls) ∧
      (on_readable_left c = 0 ∨ ev = true ∨ r = none ∨ r = some [])) ∨
    (∃ d, r = some d ∧ d ≠ [] ∧ ev = false ∧ on_readable_left c ≠ 0 ∧
      nul_index c d < READ_BUFFER ∧ c1.buffered_data = 0 ∧ one_command_calls c c1) := by
  simp only [on_readable] at h
  split at h
  · rename_i hl
    simp at h; subst h
    exact Or.inl ⟨rfl, ⟨rfl, rfl⟩, Or.inl hl⟩
  · rename_i hl
    split at h
    · rename_i hev
      simp at h; subst h
      exact Or.inl ⟨rfl, ⟨rfl, rfl⟩, Or.inr (Or.inl hev)⟩
    · rename_i hev
      split at h
      · simp at h; subst h
        exact Or.inl ⟨rfl, ⟨rfl, rfl⟩, Or.inr (Or.inr (Or.inl rfl))⟩
      · rename_i d
        split at h
        · rename_i hd
          simp at h; subst h
          exact Or.inl ⟨rfl, ⟨rfl, rfl⟩, Or.inr (Or.inr (Or.inr (by
            rw [List.length_eq_zero.mp hd])))⟩
        · rename_i hd
          split at h
          · simp at h
          · split at h
            · simp at h
            · rename_i buf hwr
              split at h
              · simp at h
              · rename_i ret c2 hh
                simp at h; subst h
                obtain ⟨hret, l, hcalls, hl2⟩ := handle_shape _ ret c2 hh
                refine Or.inr ⟨d, rfl, ?_, by simpa using hev, hl, ?_,
                  on_readable_ret_cursor ret c2 hret, l, ?_, hl2⟩
                · intro h0; exact hd (by simp [h0])
                · unfold wr at hwr
                  split at hwr
                  · assumption
                  · simp at hwr
                · rw [on_readable_ret_calls, hcalls]

/-- What one `on_readable` call does at most: whatever bytes the read
delivered, `handle` runs once, the storage engine is called as one command
calls it, a cycle in which bytes were received ends with
`buffered_data = 0`, and so does every cycle in which `handle` returned 1
or -1. -/
theorem one_command_per_cycle (c c1 : rl_connection) (ev : Bool) (r : Option Bytes)
    (h : on_readable c ev r = some c1) :
    one_command_calls c c1 ∧
    (∀ d, r = some d → d ≠ [] → ev = false → on_readable_left c ≠ 0 → c1.buffered_data = 0) ∧
    (∀ (ret : Int) (c2 : rl_connection), ret = 1 ∨ ret = -1 →
      (on_readable_ret ret c2).buffered_data = 0) := by
  refine ⟨?_, ?_, fun ret c2 hret => on_readable_ret_cursor ret c2 hret⟩
  · rcases on_readable_cases c c1 ev r h with ⟨_, hout, _⟩ | ⟨d, _, _, _, _, _, _, hrep⟩
    · exact calls_same c c1 hout.2
    · exact hrep
  · intro d hr hd hev hleft
    rcases on_readable_cases c c1 ev r h with ⟨_, _, hc⟩ | ⟨_, _, _, _, _, _, hbd, _⟩
    · rcases hc with h0 | h0 | h0 | h0
      · exact absurd h0 hleft
      · rw [hev] at h0; exact absurd h0 (by decide)
      · rw [hr] at h0; exact absurd h0 (by simp)
      · rw [hr] at h0; exact absurd (Option.some.inj h0) hd
    · exact hbd

/-- C16: `handle` never returns 0: whenever it returns, the result is 1 or
-1; hence an `on_readable` call that receives at least one byte ends with
`buffered_data = 0`, and nothing of a partly received frame is kept for the
next read. -/
theorem C16_handle_never_incomplete (c c1 : rl_connection) (d : Bytes)
    (hd : d ≠ []) (hleft : on_readable_left c ≠ 0)
    (h : on_readable c false (some d) = some c1) :
    c1.buffered_data = 0 ∧
    (∀ (c0 : rl_connection) (ret : Int) (c2 : rl_connection),
      handle c0 = some (ret, c2) → (ret = 1 ∨ ret = -1) ∧ ret ≠ 0) := by
  constructor
  · rcases on_readable_cases c c1 false (some d) h with ⟨_, _, hc⟩ | ⟨_, _, _, _, _, _, hbd, _⟩
    · rcases hc with h0 | h0 | h0 | h0
      · exact absurd h0 hleft
      · exact absurd h0 (by decide)
      · exact absurd h0 (by simp)
      · exact absurd (Option.some.inj h0) hd
    · exact hbd
  · intro c0 ret c2 hh
    have hret := (handle_shape c0 ret c2 hh).1
    refine ⟨hret, ?_⟩
    rcases hret with rfl | rfl <;> decide

/-- C16 at a read that delivers only `*2\r\n$3\r\nget\r\n$5\r\nab`, a proper
part of a frame: the cursor is 0 afterwards. -/
theorem C16_handle_never_incomplete_witness :
    ∃ c1, on_readable (conn_of (fun _ => 0) (db_of [])) false
        (some (bytes "*2\r\n$3\r\nget\r\n$5\r\nab")) = some c1 ∧
      (c1.buffered_data = 0 ∧
      (∀ (c0 : rl_connection) (ret : Int) (c2 : rl_connection),
        handle c0 = some (ret, c2) → (ret = 1 ∨ ret = -1) ∧ ret ≠ 0)) := by
  cases h : on_readable (conn_of (fun _ => 0) (db_of [])) false
      (some (bytes "*2\r\n$3\r\nget\r\n$5\r\nab")) with
  | none =>
    have hs : (on_readable (conn_of (fun _ => 0) (db_of [])) false
      (some (bytes "*2\r\n$3\r\nget\r\n$5\r\nab"))).isSome = true := by decide
    rw [h] at hs
    exact absurd hs (by decide)
  | some c1 =>
    exact ⟨c1, rfl, C16_handle_never_incomplete _ c1 _ (by decide) (by decide) h⟩

/-- A read that delivers `GET k` and `INCR k` together, followed by a read
that delivers `GET k`: the two GET requests are answered with `$-1\r\n`, the
INCR request is never run. -/
theorem pipelined_frame_dropped :
    (deliver (conn_of (fun _ => 0) (db_of []))
        [get_frame (bytes "k") ++ incr_frame (bytes "k"), get_frame (bytes "k")]).map
        (fun c => (c.fd_out, c.buffered_data, c.server.db.calls))
      = some (bytes "$-1\r\n" ++ bytes "$-1\r\n", 0,
          [db_call.get (bytes "k"), db_call.get (bytes "k")]) := by
  decide

theorem get_int_loop_ge (buf : Nat → Nat) : ∀ (left b val pos v p : Nat),
    get_int_loop buf left b val pos = some (v, p) → b + 2 ≤ p := by
  intro left
  induction left with
  | zero => intro b val pos v p h; simp [get_int_loop] at h
  | succ n ih =>
    intro b val pos v p h
    simp only [get_int_loop] at h
    split at h
    · simp at h; omega
    · have := ih _ _ _ _ _ h
      omega

theorem get_int_ge (buf : Nat → Nat) (b v p : Nat) (h : get_int buf b = some (v, p)) :
    b + 2 ≤ p :=
  get_int_loop_ge buf _ b 0 1 v p h

theorem rd_bytes_wr (buf buf1 : Nat → Nat) (i x b n : Nat) (h : wr buf i x = some buf1)
    (hout : i < b ∨ b + n ≤ i) : rd_bytes buf1 b n = rd_bytes buf b n := by
  unfold wr at h
  split at h
  · simp at h
    subst h
    unfold rd_bytes
    split
    · congr 1
      apply List.map_congr_left
      intro m hm
      have hm1 : m < n := List.mem_range.mp hm
      have : b + m ≠ i := by omega
      simp [this]
    · rfl
  · simp at h

/-- What `set` does once both `$` markers are found and the NUL stored after
the value falls inside `read_buffer`: one `leveldb_put` of the key and value
bytes of the buffer, the reply `+OK\r\n` and nothing else on the socket. -/
theorem set_stores (c : rl_connection) (b key_size key val_size val : Nat) (k v : Bytes)
    (hb : rd c.read_buffer b = some 36)
    (hks : get_int c.read_buffer (b + 1) = some (key_size, key))
    (hb2 : rd c.read_buffer (key + key_size + 2) = some 36)
    (hvs : get_int c.read_buffer (key + key_size + 2 + 1) = some (val_size, val))
    (hin : val + val_size < READ_BUFFER)
    (hk : rd_bytes c.read_buffer key key_size = some k)
    (hv : rd_bytes c.read_buffer val val_size = some v) :
    ∃ c1, set c b = some (1, c1) ∧ c1.fd_out = c.fd_out ++ bytes "+OK\r\n" ∧
      c1.server.db.calls = c.server.db.calls ++ [db_call.put k v] ∧
      (c.server.db.put_err = none →
        c1.server.db.data.lookup k = some v ∧ c1.server.stdout = c.server.stdout) ∧
      (∀ e, c.server.db.put_err = some e →
        c1.server.db.data = c.server.db.data ∧ c1.server.stdout = c.server.stdout ++ [e]) := by
  have hge := get_int_ge _ _ _ _ hvs
  have hlt : key + key_size < READ_BUFFER := by
    unfold rd at hb2
    split at hb2
    · omega
    · simp at hb2
  obtain ⟨buf1, hw1⟩ : ∃ buf1, wr c.read_buffer (key + key_size) 0 = some buf1 := by
    simp [wr, hlt]
  obtain ⟨buf2, hw2⟩ : ∃ buf2, wr buf1 (val + val_size) 0 = some buf2 := by
    simp [wr, hin]
  have hk2 : rd_bytes buf2 key key_size = some k := by
    rw [rd_bytes_wr buf1 buf2 _ 0 key key_size hw2 (Or.inr (by omega)),
      rd_bytes_wr c.read_buffer buf1 _ 0 key key_size hw1 (Or.inr (by omega)), hk]
  have hv2 : rd_bytes buf2 val val_size = some v := by
    rw [rd_bytes_wr buf1 buf2 _ 0 val val_size hw2 (Or.inr (by omega)),
      rd_bytes_wr c.read_buffer buf1 _ 0 val val_size hw1 (Or.inl (by omega)), hv]
  simp only [set, hb, hks, hb2, hvs, hw1, hw2, hk2, hv2]
  have hok : bytes "+OK\r\n" = bytes "+" ++ c_str (bytes "OK") ++ bytes "\r\n" := by decide
  cases hput : c.server.db.put_err <;>
    simp [leveldb_put, hput, write_status, write, error, hok, List.lookup]

/-- What holds of every SET request that reaches the storage write (both `$`
markers found, the accesses inside `read_buffer`): it makes one
`leveldb_put` of the key `k` and the value `v`, the bytes that follow the
two length fields in the lengths `get_int` reads from them, and is answered
with exactly `+OK\r\n`, whether the write is accepted or reports an error;
the error is printed on the standard output and never sent to the client;
when the write is accepted the key maps to `v`. -/
theorem set_always_ok (c : rl_connection) (key_size key val_size val : Nat) (k v : Bytes)
    (hframe : starts_with c.read_buffer (bytes "*3\r\n$3\r\nset\r\n$"))
    (hks : get_int c.read_buffer 14 = some (key_size, key))
    (hb2 : rd c.read_buffer (key + key_size + 2) = some 36)
    (hvs : get_int c.read_buffer (key + key_size + 2 + 1) = some (val_size, val))
    (hin : val + val_size < READ_BUFFER)
    (hk : rd_bytes c.read_buffer key key_size = some k)
    (hv : rd_bytes c.read_buffer val val_size = some v) :
    ∃ c1, handle c = some (1, c1) ∧ c1.fd_out = c.fd_out ++ bytes "+OK\r\n" ∧
      c1.server.db.calls = c.server.db.calls ++ [db_call.put k v] ∧
      (c.server.db.put_err = none →
        c1.server.db.data.lookup k = some v ∧ c1.server.stdout = c.server.stdout) ∧
      (∀ e, c.server.db.put_err = some e →
        c1.server.db.data = c.server.db.data ∧ c1.server.stdout = c.server.stdout ++ [e]) := by
  have hd : handle c = set c 13 :=
    handle_set_frame c (starts_with_of_append c.read_buffer (bytes "*3\r\n$3\r\nset\r\n") [36] hframe)
  have hb : rd c.read_buffer 13 = some 36 :=
    starts_with_rd c.read_buffer _ 13 hframe (by decide) (by decide)
  rw [hd]
  exact set_stores c 13 key_size key val_size val k v hb hks hb2 hvs hin hk hv

/-- The request `SET k ab` sent to an engine whose writes report
`IO error`. -/
theorem set_always_ok_example :
    ∃ c1, handle (conn_of (buffer_of (set_frame (bytes "k") (bytes "ab")))
        { db_of [] with put_err := some (bytes "IO error") }) = some (1, c1) ∧
      c1.fd_out = [] ++ bytes "+OK\r\n" ∧
      c1.server.db.calls = [] ++ [db_call.put (bytes "k") (bytes "ab")] ∧
      (some (bytes "IO error") = none →
        c1.server.db.data.lookup (bytes "k") = some (bytes "ab") ∧ c1.server.stdout = []) ∧
      (∀ e, some (bytes "IO error") = some e →
        c1.server.db.data = [] ∧ c1.server.stdout = [] ++ [e]) :=
  set_always_ok (conn_of (buffer_of (set_frame (bytes "k") (bytes "ab")))
    { db_of [] with put_err := some (bytes "IO error") }) 1 17 2 24 (bytes "k") (bytes "ab")
    (by decide) (by decide) (by decide) (by decide) (by decide) (by decide) (by decide)

/-- The same request with an engine that accepts the write and with one that
does not: the socket receives `+OK\r\n` both times. -/
theorem set_reply_examples :
    (handle (conn_of (buffer_of (set_frame (bytes "k") (bytes "ab"))) (db_of []))).map
        (fun r => (r.1, r.2.fd_out, r.2.server.db.data.lookup (bytes "k")))
      = some (1, bytes "+OK\r\n", some (bytes "ab")) ∧
    (handle (conn_of (buffer_of (set_frame (bytes "k") (bytes "ab")))
        { db_of [] with put_err := some (bytes "IO error") })).map
        (fun r => (r.1, r.2.fd_out, r.2.server.db.data.lookup (bytes "k")))
      = some (1, bytes "+OK\r\n", none) := by
  decide

set_option maxRecDepth 100000 in
/-- C11: `SET k v` with a value `v` of 100 bytes `a` reaches the storage
write, the write is accepted and the reply is `+OK\r\n`; `k` then maps to
1000 bytes, the value followed by its `\r\n` and by 898 bytes of the buffer
behind the frame, and not to the 100 value bytes the frame declares:
`get_int` reads the length `100` as 1000. -/
theorem C11_set_stores_thousand_bytes :
    (set_frame (bytes "k") (List.replicate 100 97)).length < READ_BUFFER ∧
    (handle (conn_of (buffer_of (set_frame (bytes "k") (List.replicate 100 97))) (db_of []))).map
        (fun r => (r.1, r.2.fd_out, r.2.server.db.data.lookup (bytes "k")))
      = some (1, bytes "+OK\r\n",
          some (List.replicate 100 97 ++ bytes "\r\n" ++ List.replicate 898 0)) ∧
    List.replicate 100 97 ++ bytes "\r\n" ++ List.replicate 898 0 ≠ List.replicate 100 97 := by
  decide

/-- The cursor stays within `0 .. READ_BUFFER` over one `on_readable` call
once it is there. -/
theorem cursor_bounds_preserved (c c1 : rl_connection) (ev : Bool) (r : Option Bytes)
    (hc : 0 ≤ c.buffered_data ∧ c.buffered_data ≤ (READ_BUFFER : Int))
    (h : on_readable c ev r = some c1) :
    0 ≤ c1.buffered_data ∧ c1.buffered_data ≤ (READ_BUFFER : Int) := by
  rcases on_readable_cases c c1 ev r h with ⟨hbd, _, _⟩ | ⟨_, _, _, _, _, _, hbd, _⟩
  · rw [hbd]; exact hc
  · rw [hbd]; simp [READ_BUFFER]

/-- C12: `new_connection` does not set `buffered_data`; with a block from
`malloc` that holds 9000 there, the cursor of the new connection is 9000,
above `READ_BUFFER`, and it is still 9000 after an `on_readable` call whose
`recv` returns a negative result. -/
theorem C12_cursor_not_initialised :
    (new_connection { db := db_of [], stdout := [] } 9000 (fun _ => 0)).buffered_data = 9000 ∧
    (on_readable (new_connection { db := db_of [], stdout := [] } 9000 (fun _ => 0)) false
        none).map (fun c => c.buffered_data) = some 9000 ∧
    ¬ ((0 : Int) ≤ 9000 ∧ (9000 : Int) ≤ (READ_BUFFER : Int)) := by
  decide

/-- A read that fills all the space left in `read_buffer` makes the NUL land
on index `READ_BUFFER`, one past the last byte of the array. -/
theorem nul_store_outside (c : rl_connection) (d : Bytes)
    (h0 : 0 ≤ c.buffered_data) (h1 : c.buffered_data < 8192)
    (hd : (d.length : Int) = 8192 - c.buffered_data) :
    (d.length : Int) = on_readable_left c ∧ nul_index c d = READ_BUFFER ∧
      on_readable c false (some d) = none := by
  have hoff : on_readable_offset c = c.buffered_data.toNat := by
    simp only [on_readable_offset, SIZE_MOD]
    omega
  have hleft : on_readable_left c = 8192 - c.buffered_data := by
    simp only [on_readable_left, hoff, READ_BUFFER, SIZE_MOD, wrap_int]
    omega
  have hidx : c.buffered_data.toNat + d.length = 8192 := by omega
  refine ⟨by rw [hleft, hd], by simp only [nul_index, hoff, READ_BUFFER]; exact hidx, ?_⟩
  have hoff2 : (c.buffered_data % (SIZE_MOD : Int)).toNat = c.buffered_data.toNat := hoff
  have hleft2 : wrap_int (((READ_BUFFER : Int) - ((c.buffered_data.toNat : Nat) : Int))
      % (SIZE_MOD : Int)) ≠ 0 := by
    simp only [READ_BUFFER, SIZE_MOD, wrap_int]
    omega
  have hlen : d.length ≠ 0 := by omega
  have hwr : ∀ f : Nat → Nat, wr f (c.buffered_data.toNat + d.length) 0 = none := by
    intro f
    rw [hidx]
    simp [wr, READ_BUFFER]
  simp only [on_readable, hoff2, hwr]
  rw [if_neg hleft2]
  simp [hlen, hidx, READ_BUFFER]

/-- C14: with an empty buffer (`buffered_data = 0`) and a `recv` that returns
8192 bytes, as many as were asked for, the NUL is stored at index 8192, which
is not below 8192: the store falls outside `read_buffer`. -/
theorem C14_nul_past_the_end :
    (conn_of (fun _ => 0) (db_of [])).buffered_data = 0 ∧
    on_readable_left (conn_of (fun _ => 0) (db_of [])) = 8192 ∧
    (List.replicate 8192 97).length = 8192 ∧
    nul_index (conn_of (fun _ => 0) (db_of [])) (List.replicate 8192 97) = 8192 ∧
    ¬ nul_index (conn_of (fun _ => 0) (db_of [])) (List.replicate 8192 97) < READ_BUFFER ∧
    on_readable (conn_of (fun _ => 0) (db_of [])) false (some (List.replicate 8192 97)) = none := by
  have h := nul_store_outside (conn_of (fun _ => 0) (db_of [])) (List.replicate 8192 97)
    (by decide) (by decide) (by rw [List.length_replicate]; decide)
  have hl : (List.replicate 8192 97 : Bytes).length = 8192 := List.length_replicate _ _
  refine ⟨rfl, ?_, hl, ?_, ?_, h.2.2⟩
  · rw [← h.1, hl]; rfl
  · rw [h.2.1]; rfl
  · rw [h.2.1]; decide

/-- C15: two buffers that hold the same 19 received bytes
`*2\r\n$3\r\nget\r\n$5\r\nab` and the NUL after them, and differ only in the
two stale bytes behind the NUL (`AA` and `BB`), over the same store: `handle`
looks up a different key and writes a different reply. -/
theorem C15_stale_bytes_used :
    agree_upto (buffer_of (bytes "*2\r\n$3\r\nget\r\n$5\r\nab" ++ [0, 65, 65]))
      (buffer_of (bytes "*2\r\n$3\r\nget\r\n$5\r\nab" ++ [0, 66, 66])) 19 ∧
    buffer_of (bytes "*2\r\n$3\r\nget\r\n$5\r\nab" ++ [0, 65, 65]) 19 = 0 ∧
    (handle { conn_of (buffer_of (bytes "*2\r\n$3\r\nget\r\n$5\r\nab" ++ [0, 65, 65]))
        (db_of [(bytes "ab" ++ [0, 65, 65], bytes "x")]) with buffered_data := 19 }).map
        (fun r => (r.1, r.2.fd_out, r.2.server.db.calls))
      = some (1, bytes "$1\r\nx\r\n", [db_call.get (bytes "ab" ++ [0, 65, 65])]) ∧
    (handle { conn_of (buffer_of (bytes "*2\r\n$3\r\nget\r\n$5\r\nab" ++ [0, 66, 66]))
        (db_of [(bytes "ab" ++ [0, 65, 65], bytes "x")]) with buffered_data := 19 }).map
        (fun r => (r.1, r.2.fd_out, r.2.server.db.calls))
      = some (1, bytes "$-1\r\n", [db_call.get (bytes "ab" ++ [0, 66, 66])]) ∧
    (deliver (conn_of (fun _ => 0) (db_of [(bytes "ab" ++ [0, 65, 65], bytes "x")]))
        [get_frame (bytes "secAAret"), bytes "*2\r\n$3\r\nget\r\n$5\r\nab"]).map
        (fun c => c.fd_out) = some (bytes "$-1\r\n" ++ bytes "$1\r\nx\r\n") ∧
    (deliver (conn_of (fun _ => 0) (db_of [(bytes "ab" ++ [0, 65, 65], bytes "x")]))
        [get_frame (bytes "secBBret"), bytes "*2\r\n$3\r\nget\r\n$5\r\nab"]).map
        (fun c => c.fd_out) = some (bytes "$-1\r\n" ++ bytes "$-1\r\n") := by
  decide

end RedisLeveldb
